import Mathlib

/-!
Verification of the habit-tracker backend (`final.py`) against its
natural-language specification.

Modelling conventions (shallow embedding):
* A Python `datetime` is modelled as an `Int`: seconds since an arbitrary
  epoch.  Python stores microseconds; the algorithm only ever compares
  timestamps and subtracts `timedelta(days = n)`, so any fixed resolution
  gives the same behaviour.  `timedelta(days = n)` becomes `secondsPerDay * n`.
* Python's ISO-8601 text form of a datetime round-trips exactly
  (`datetime.fromisoformat (d.isoformat ()) == d`), so the serialized string
  is represented by the timestamp it denotes; `datetime_to_str` and
  `datetime_from_str` are the identity on that representation.
* The class-level mutable counter `Habit._id_counter` is modelled by
  explicit state passing: every operation that reads or writes it takes the
  current counter and returns the updated one.
* The `while True` loop of `Habit.update_streak` need not terminate for a
  non-positive frequency or period, so the model runs it on explicit fuel
  and returns `Option`: `none` models divergence of the Python loop, and the
  fuel is chosen large enough that `some` is reached whenever the Python
  loop stops (proved below for frequency ≥ 1 and period ≥ 1).
-/

/-- Seconds in a day: the scale factor of `timedelta(days = n)` in the
seconds-since-epoch model of `datetime`. -/
def secondsPerDay : Int := 86400

/-- Python `max(history)` for a list of timestamps (only ever called on a
non-empty history; the `[]` value is arbitrary). -/
def listMax : List Int → Int
  | [] => 0
  | x :: xs => xs.foldl max x

/-- Python `min(history)` (used only to size the loop fuel; the `[]` value
is arbitrary). -/
def listMin : List Int → Int
  | [] => 0
  | x :: xs => xs.foldl min x

/-- `datetime_to_str` (final.py line 21): ISO-8601 formatting.  The string
is represented by the timestamp it denotes, since the Python round-trip is
exact. -/
def datetime_to_str (dt : Int) : Int := dt

/-- `datetime_from_str` (final.py line 25): ISO-8601 parsing, inverse of
`datetime_to_str`. -/
def datetime_from_str (s : Int) : Int := s

/-- The `Habit` object of final.py (lines 64-91): identifier, name,
periodicity pair plus the `frequency`/`period` fields copied from it,
check-in history, streak counters and creation time. -/
structure Habit where
  habit_id : Int
  name : String
  periodicity : Int × Int
  frequency : Int
  period : Int
  history : List Int
  streak : Int
  longest_streak : Int
  creation : Int
  deriving DecidableEq

/-- The `User` object of final.py (lines 33-40). -/
structure User where
  user_id : Int
  name : String
  habits : List Habit
  deriving DecidableEq

/-- `Habit.__init__` (final.py lines 75-91).  Takes the current value of
the class-level `_id_counter` and returns the constructed habit together
with the updated counter.  `today` stands for `datetime.today()`, used only
when `creation` is absent. -/
def Habit.init (name : String) (periodicity : Int × Int) (creation : Option Int)
    (habit_id : Option Int) (today : Int) (counter : Int) : Habit × Int :=
  match habit_id with
  | none =>
      ({ habit_id := counter
         name := name
         periodicity := periodicity
         frequency := periodicity.1
         period := periodicity.2
         history := []
         streak := 0
         longest_streak := 0
         creation := creation.getD today }, counter + 1)
  | some hid =>
      ({ habit_id := hid
         name := name
         periodicity := periodicity
         frequency := periodicity.1
         period := periodicity.2
         history := []
         streak := 0
         longest_streak := 0
         creation := creation.getD today },
       if counter ≤ hid then hid + 1 else counter)

/-- Line 124 of final.py: the number of check-ins `dt` in `history` with
`start_period ≤ dt ≤ end_period`, both bounds inclusive. -/
def windowCount (history : List Int) (startP endP : Int) : Nat :=
  (history.filter fun dt => decide (startP ≤ dt ∧ dt ≤ endP)).length

/-- The `while True` loop of `Habit.update_streak` (final.py lines 123-130),
run on explicit fuel.  Each iteration counts the check-ins in the inclusive
window `[endP − periodLen, endP]`; a count `≥ frequency` adds one to the
streak and slides the window back, a smaller count stops the walk.  `none`
means the fuel ran out, modelling divergence of the unbounded Python loop. -/
def streak_loop (history : List Int) (frequency periodLen : Int) :
    Nat → Int → Option Nat
  | 0, _ => none
  | fuel + 1, endP =>
      let startP := endP - periodLen
      if frequency ≤ (windowCount history startP endP : Int) then
        (streak_loop history frequency periodLen fuel startP).map (· + 1)
      else
        some 0

/-- Lines 118-132 of final.py factored over the already-computed reference
time: run the backward window walk from `reference` and store the resulting
streak, raising `longest_streak` when the new streak exceeds it. -/
def Habit.walk_from (h : Habit) (reference : Int) : Option Habit :=
  let period_length := secondsPerDay * h.period
  match streak_loop h.history h.frequency period_length
      ((reference - listMin h.history).toNat + 2) reference with
  | none => none
  | some count =>
      some { h with
             streak := (count : Int)
             longest_streak :=
               if h.longest_streak < (count : Int) then (count : Int)
               else h.longest_streak }

/-- `Habit.update_streak` (final.py lines 100-134).  Empty history: streak
becomes 0 and the method returns at once.  Otherwise the reference is the
supplied `update_time` when that is strictly earlier than the latest
check-in, else the latest check-in, and the window walk runs from there.
The fuel `(reference − min history).toNat + 2` is enough for every
terminating run of the Python loop (proved below for frequency ≥ 1,
period ≥ 1); `none` models a diverging loop. -/
def Habit.update_streak (h : Habit) (update_time : Option Int) : Option Habit :=
  if h.history = [] then
    some { h with streak := 0 }
  else
    let last_checkin := listMax h.history
    let reference : Int :=
      match update_time with
      | some t => if t < last_checkin then t else last_checkin
      | none => last_checkin
    h.walk_from reference

/-- The reference time `Habit.update_streak` anchors its walk at
(final.py line 116): the supplied time when it is strictly earlier than the
latest check-in, otherwise the latest check-in. -/
def anchorOf (h : Habit) (update_time : Option Int) : Int :=
  match update_time with
  | some t => if t < listMax h.history then t else listMax h.history
  | none => listMax h.history

/-- The serialized form of a habit (`Habit.to_dict`, final.py lines
136-146): one field per dictionary key. -/
structure HabitDict where
  habit_id : Int
  name : String
  periodicity : List Int
  history : List Int
  streak : Int
  longest_streak : Int
  creation : Int
  deriving DecidableEq

/-- The serialized form of a user (`User.to_dict`, final.py lines 50-56). -/
structure UserDict where
  user_id : Int
  name : String
  habits : List HabitDict
  deriving DecidableEq

/-- `Habit.to_dict` (final.py lines 136-146): the periodicity tuple becomes
a two-element list, timestamps become ISO strings. -/
def Habit.to_dict (h : Habit) : HabitDict :=
  { habit_id := h.habit_id
    name := h.name
    periodicity := [h.periodicity.1, h.periodicity.2]
    history := h.history.map datetime_to_str
    streak := h.streak
    longest_streak := h.longest_streak
    creation := datetime_to_str h.creation }

/-- `Habit.from_dict` (final.py lines 148-160): construct via
`Habit.__init__` (which updates the id counter), then overwrite history,
streak and longest_streak from the document.  `none` models the IndexError
Python raises when the periodicity list has fewer than two elements; the
`today` argument of `Habit.init` is irrelevant (creation is supplied) and
passed as 0. -/
def Habit.from_dict (d : HabitDict) (counter : Int) : Option (Habit × Int) :=
  match d.periodicity with
  | f :: p :: _ =>
      let hc := Habit.init d.name (f, p) (some (datetime_from_str d.creation))
        (some d.habit_id) 0 counter
      some ({ hc.1 with
              history := d.history.map datetime_from_str
              streak := d.streak
              longest_streak := d.longest_streak }, hc.2)
  | _ => none

/-- `User.to_dict` (final.py lines 50-56). -/
def User.to_dict (u : User) : UserDict :=
  { user_id := u.user_id
    name := u.name
    habits := u.habits.map Habit.to_dict }

/-- The habit list comprehension of `User.from_dict` (final.py line 61),
threading the id counter left to right; fails when any habit fails. -/
def habitsFromDicts : List HabitDict → Int → Option (List Habit × Int)
  | [], c => some ([], c)
  | d :: ds, c =>
      match Habit.from_dict d c with
      | none => none
      | some (h, c') =>
          match habitsFromDicts ds c' with
          | none => none
          | some (hs, c'') => some (h :: hs, c'')

/-- `User.from_dict` (final.py lines 58-62). -/
def User.from_dict (d : UserDict) (counter : Int) : Option (User × Int) :=
  match habitsFromDicts d.habits counter with
  | none => none
  | some (hs, c') =>
      some ({ user_id := d.user_id, name := d.name, habits := hs }, c')

/-- `analytics_longest_streak_for_habit` loop body (final.py lines 208-212):
scan the habit list for the identifier, recompute that habit's streak and
return its longest streak; return Python `None` (`some none`) when the scan
ends without a match.  The outer `none` models a diverging
`update_streak`. -/
def findLongestStreak : List Habit → Int → Option (Option Int)
  | [], _ => some none
  | h :: rest, hid =>
      if h.habit_id = hid then
        match h.update_streak none with
        | none => none
        | some h' => some (some h'.longest_streak)
      else
        findLongestStreak rest hid

/-- `analytics_longest_streak_for_habit` (final.py lines 206-212). -/
def analytics_longest_streak_for_habit (u : User) (habit_id : Int) :
    Option (Option Int) :=
  findLongestStreak u.habits habit_id

/-- A sequence of recomputations on one habit: each step installs an
arbitrary new history (standing for any check-ins or edits made between
calls, none of which touch `longest_streak`) and then calls
`update_streak` with an arbitrary reference time. -/
def applyUpdates (h : Habit) : List (List Int × Option Int) → Option Habit
  | [] => some h
  | (hist, ut) :: ops =>
      match ({ h with history := hist }).update_streak ut with
      | none => none
      | some h' => applyUpdates h' ops

/-- Window `k` of the backward walk from `ref` is satisfied: the inclusive
window `[ref − (k+1)·pd, ref − k·pd]` contains at least `f` check-ins. -/
def window_satisfied (history : List Int) (f pd ref : Int) (k : Nat) : Prop :=
  f ≤ (windowCount history (ref - ((k : Int) + 1) * pd) (ref - (k : Int) * pd) : Int)

instance (history : List Int) (f pd ref : Int) (k : Nat) :
    Decidable (window_satisfied history f pd ref k) := by
  unfold window_satisfied; infer_instance

/-- Timestamp of day `i` (midnight) in the seconds model. -/
def dayT (i : Int) : Int := i * secondsPerDay

/-- A freshly created habit with a given check-in history, used as concrete
test input (streak counters start at 0, as in `Habit.__init__`). -/
def testHabit (hid : Int) (nm : String) (per : Int × Int) (hist : List Int) :
    Habit :=
  { habit_id := hid
    name := nm
    periodicity := per
    frequency := per.1
    period := per.2
    history := hist
    streak := 0
    longest_streak := 0
    creation := 0 }

/-- Scenario E fixture (`generate_test_data`, user_data.py lines 42-46):
the 3-times-per-7-days habit with exactly 3 check-ins in each of 4 weeks. -/
def habitE : Habit :=
  testHabit 3 "Read Book" (3, 7)
    ([0, 1, 2, 7, 8, 9, 14, 15, 16, 21, 22, 23].map dayT)

/-- Scenario C fixture (`generate_test_data`, user_data.py lines 28-32):
the daily habit whose 28-day history skips every 7th day. -/
def habitC : Habit :=
  testHabit 1 "Exercise" (1, 1)
    ((List.range 28).filterMap fun i =>
      if i % 7 ≠ 0 then some (dayT (i : Int)) else none)

/-- Two habits agreeing on every field the persisted document stores:
identifier, name, periodicity, full history, streak, longest streak and
creation time. -/
def habit_fields_match (a b : Habit) : Prop :=
  a.habit_id = b.habit_id ∧ a.name = b.name ∧ a.periodicity = b.periodicity ∧
  a.history = b.history ∧ a.streak = b.streak ∧
  a.longest_streak = b.longest_streak ∧ a.creation = b.creation

/-- A small concrete daily habit with check-ins on days 0 and 1. -/
def habitW : Habit := testHabit 0 "a" (1, 1) [dayT 0, dayT 1]

/-- `habitW` with its history replaced by a single day-0 check-in. -/
def habitWH : Habit := { habitW with history := [dayT 0] }

/-- Result of updating `habitWH`: one satisfied window. -/
def habitWH_updated : Habit := { habitWH with streak := 1, longest_streak := 1 }

/-- A two-step recomputation sequence on `habitW`: first with a single
check-in, then with the history cleared. -/
def updOps : List (List Int × Option Int) := [([dayT 0], none), ([], some (dayT 7))]

/-- Result of running `updOps` from `habitW`: the final empty-history update
resets the streak but keeps the longest streak of 1. -/
def updResult : Habit := { habitW with history := [], streak := 0, longest_streak := 1 }

/-- A habit with empty history, a non-positive periodicity and a non-zero
longest streak, exercising the empty-history early return. -/
def habitEmpty : Habit :=
  { testHabit 2 "b" (0, -3) [] with longest_streak := 5 }

/-- A persisted habit document carrying identifier 7. -/
def dict7 : HabitDict :=
  { habit_id := 7
    name := "b"
    periodicity := [2, 5]
    history := [dayT 1]
    streak := 1
    longest_streak := 2
    creation := 0 }

/-- The habit `Habit.from_dict` rebuilds from `dict7`. -/
def habit7 : Habit :=
  { habit_id := 7
    name := "b"
    periodicity := (2, 5)
    frequency := 2
    period := 5
    history := [dayT 1]
    streak := 1
    longest_streak := 2
    creation := 0 }

/-- A user owning just `habitW` (identifier 0). -/
def userW : User := { user_id := 0, name := "u", habits := [habitW] }

/-! ### Helper lemmas about the window walk -/

theorem foldl_min_bounds (xs : List Int) :
    ∀ a : Int, xs.foldl min a ≤ a ∧ ∀ t ∈ xs, xs.foldl min a ≤ t := by
  induction xs with
  | nil => intro a; exact ⟨le_refl a, by intro t ht; cases ht⟩
  | cons x xs ih =>
    intro a
    refine ⟨le_trans (ih (min a x)).1 (min_le_left a x), ?_⟩
    intro t ht
    rcases List.mem_cons.mp ht with h | h
    · subst h
      exact le_trans (ih (min a t)).1 (min_le_right a t)
    · exact (ih (min a x)).2 t h

theorem listMin_le (l : List Int) (t : Int) (ht : t ∈ l) : listMin l ≤ t := by
  cases l with
  | nil => cases ht
  | cons x xs =>
    rcases List.mem_cons.mp ht with h | h
    · subst h; exact (foldl_min_bounds xs t).1
    · exact (foldl_min_bounds xs x).2 t h

theorem windowCount_eq_zero (history : List Int) (m startP endP : Int)
    (hm : ∀ t ∈ history, m ≤ t) (hlt : endP < m) :
    windowCount history startP endP = 0 := by
  unfold windowCount
  rw [List.length_eq_zero, List.filter_eq_nil_iff]
  intro a ha
  simp only [decide_eq_true_eq, not_and, not_le]
  intro _
  exact lt_of_lt_of_le hlt (hm a ha)

theorem exists_mem_of_windowCount_pos (history : List Int) (startP endP : Int)
    (h : 0 < windowCount history startP endP) :
    ∃ t ∈ history, startP ≤ t ∧ t ≤ endP := by
  unfold windowCount at h
  obtain ⟨t, ht⟩ := List.exists_mem_of_length_pos h
  rw [List.mem_filter] at ht
  exact ⟨t, ht.1, by simpa using ht.2⟩

theorem streak_loop_of_below (history : List Int) (f pd m : Int)
    (hf : 1 ≤ f) (hm : ∀ t ∈ history, m ≤ t) (fuel : Nat) (endP : Int)
    (hlt : endP < m) (hfuel : 1 ≤ fuel) :
    streak_loop history f pd fuel endP = some 0 := by
  cases fuel with
  | zero => omega
  | succ k =>
    have h0 : windowCount history (endP - pd) endP = 0 :=
      windowCount_eq_zero history m (endP - pd) endP hm hlt
    simp only [streak_loop, h0]
    rw [if_neg (by omega)]

theorem streak_loop_total (history : List Int) (f pd m : Int)
    (hf : 1 ≤ f) (hpd : 1 ≤ pd) (hm : ∀ t ∈ history, m ≤ t) :
    ∀ (fuel : Nat) (endP : Int), (endP - m).toNat + 2 ≤ fuel →
      ∃ n, streak_loop history f pd fuel endP = some n := by
  intro fuel
  induction fuel with
  | zero => intro endP h; omega
  | succ k ih =>
    intro endP hfuel
    by_cases hw : f ≤ (windowCount history (endP - pd) endP : Int)
    · have hpos : 0 < windowCount history (endP - pd) endP := by omega
      obtain ⟨t, htmem, _, ht2⟩ :=
        exists_mem_of_windowCount_pos history (endP - pd) endP hpos
      have hme : m ≤ endP := le_trans (hm t htmem) ht2
      by_cases hsm : endP - pd < m
      · refine ⟨1, ?_⟩
        have h0 : streak_loop history f pd k (endP - pd) = some 0 :=
          streak_loop_of_below history f pd m hf hm k (endP - pd) hsm (by omega)
        simp only [streak_loop]
        rw [if_pos hw, h0]
        rfl
      · push_neg at hsm
        obtain ⟨n, hn⟩ := ih (endP - pd) (by omega)
        refine ⟨n + 1, ?_⟩
        simp only [streak_loop]
        rw [if_pos hw, hn]
        rfl
    · refine ⟨0, ?_⟩
      simp only [streak_loop]
      rw [if_neg hw]

theorem window_satisfied_zero_iff (history : List Int) (f pd endP : Int) :
    window_satisfied history f pd endP 0 ↔
      f ≤ (windowCount history (endP - pd) endP : Int) := by
  unfold window_satisfied
  constructor <;> intro h <;>
  · convert h using 3 <;> push_cast <;> ring

theorem window_satisfied_shift (history : List Int) (f pd endP : Int) (k : Nat) :
    window_satisfied history f pd (endP - pd) k ↔
      window_satisfied history f pd endP (k + 1) := by
  unfold window_satisfied
  constructor <;> intro h <;>
  · convert h using 3 <;> push_cast <;> ring

theorem streak_loop_spec (history : List Int) (f pd : Int) :
    ∀ (fuel : Nat) (endP : Int) (n : Nat),
      streak_loop history f pd fuel endP = some n →
      (∀ k : Nat, k < n → window_satisfied history f pd endP k) ∧
        ¬ window_satisfied history f pd endP n := by
  intro fuel
  induction fuel with
  | zero => intro endP n h; simp [streak_loop] at h
  | succ fl ih =>
    intro endP n h
    simp only [streak_loop] at h
    by_cases hw : f ≤ (windowCount history (endP - pd) endP : Int)
    · rw [if_pos hw] at h
      obtain ⟨m, hm, rfl⟩ :
          ∃ m, streak_loop history f pd fl (endP - pd) = some m ∧ n = m + 1 := by
        cases hrec : streak_loop history f pd fl (endP - pd) with
        | none => rw [hrec] at h; simp at h
        | some m =>
          rw [hrec] at h
          simp at h
          exact ⟨m, rfl, h.symm⟩
      obtain ⟨hall, hstop⟩ := ih (endP - pd) m hm
      constructor
      · intro k hk
        cases k with
        | zero => exact (window_satisfied_zero_iff history f pd endP).mpr hw
        | succ j =>
          exact (window_satisfied_shift history f pd endP j).mp
            (hall j (by omega))
      · intro hcon
        exact hstop ((window_satisfied_shift history f pd endP m).mpr hcon)
    · rw [if_neg hw] at h
      have hn0 : n = 0 := by
        have := Option.some.inj h
        omega
      subst hn0
      refine ⟨fun k hk => absurd hk (by omega), ?_⟩
      intro hcon
      exact hw ((window_satisfied_zero_iff history f pd endP).mp hcon)

theorem update_streak_empty (h : Habit) (ut : Option Int)
    (he : h.history = []) :
    h.update_streak ut = some { h with streak := 0 } := by
  unfold Habit.update_streak
  rw [if_pos he]

theorem update_streak_eq_walk (h : Habit) (ut : Option Int)
    (hne : h.history ≠ []) :
    h.update_streak ut = h.walk_from (anchorOf h ut) := by
  unfold Habit.update_streak anchorOf
  rw [if_neg hne]

theorem walk_from_total (h : Habit) (ref : Int)
    (hf : 1 ≤ h.frequency) (hp : 1 ≤ h.period) :
    ∃ n : Nat,
      h.walk_from ref =
        some { h with
               streak := (n : Int)
               longest_streak :=
                 if h.longest_streak < (n : Int) then (n : Int)
                 else h.longest_streak } ∧
      streak_loop h.history h.frequency (secondsPerDay * h.period)
        ((ref - listMin h.history).toNat + 2) ref = some n := by
  have hpd : 1 ≤ secondsPerDay * h.period := by
    unfold secondsPerDay
    omega
  have hm : ∀ t ∈ h.history, listMin h.history ≤ t :=
    fun t ht => listMin_le h.history t ht
  obtain ⟨n, hn⟩ := streak_loop_total h.history h.frequency
    (secondsPerDay * h.period) (listMin h.history) hf hpd hm
    ((ref - listMin h.history).toNat + 2) ref (by omega)
  refine ⟨n, ?_, hn⟩
  simp only [Habit.walk_from]
  rw [hn]

theorem update_streak_total (h : Habit) (ut : Option Int)
    (hf : 1 ≤ h.frequency) (hp : 1 ≤ h.period) :
    ∃ h', h.update_streak ut = some h' := by
  by_cases he : h.history = []
  · exact ⟨_, update_streak_empty h ut he⟩
  · rw [update_streak_eq_walk h ut he]
    obtain ⟨n, hn, _⟩ := walk_from_total h (anchorOf h ut) hf hp
    exact ⟨_, hn⟩

theorem update_streak_some_cases (h : Habit) (ut : Option Int) (h' : Habit)
    (hu : h.update_streak ut = some h') :
    (h.history = [] ∧ h' = { h with streak := 0 }) ∨
    (h.history ≠ [] ∧ ∃ n : Nat,
      h' = { h with
             streak := (n : Int)
             longest_streak :=
               if h.longest_streak < (n : Int) then (n : Int)
               else h.longest_streak }) := by
  by_cases he : h.history = []
  · left
    refine ⟨he, ?_⟩
    rw [update_streak_empty h ut he] at hu
    exact (Option.some.inj hu).symm
  · right
    refine ⟨he, ?_⟩
    rw [update_streak_eq_walk h ut he] at hu
    simp only [Habit.walk_from] at hu
    cases hrec : streak_loop h.history h.frequency (secondsPerDay * h.period)
        ((anchorOf h ut - listMin h.history).toNat + 2) (anchorOf h ut) with
    | none => rw [hrec] at hu; cases hu
    | some n =>
      rw [hrec] at hu
      exact ⟨n, (Option.some.inj hu).symm⟩

theorem update_streak_longest_mono (h : Habit) (ut : Option Int) (h' : Habit)
    (hu : h.update_streak ut = some h') :
    h.longest_streak ≤ h'.longest_streak := by
  rcases update_streak_some_cases h ut h' hu with ⟨_, rfl⟩ | ⟨_, n, rfl⟩
  · exact le_refl _
  · show h.longest_streak ≤
      if h.longest_streak < (n : Int) then (n : Int) else h.longest_streak
    split <;> omega

theorem update_streak_streak_le_longest (h : Habit) (ut : Option Int)
    (h' : Habit) (hu : h.update_streak ut = some h') (hne : h.history ≠ []) :
    h'.streak ≤ h'.longest_streak := by
  rcases update_streak_some_cases h ut h' hu with ⟨he, _⟩ | ⟨_, n, rfl⟩
  · exact absurd he hne
  · show (n : Int) ≤
      if h.longest_streak < (n : Int) then (n : Int) else h.longest_streak
    split <;> omega

theorem applyUpdates_longest_mono :
    ∀ (ops : List (List Int × Option Int)) (h h' : Habit),
      applyUpdates h ops = some h' →
      h.longest_streak ≤ h'.longest_streak := by
  intro ops
  induction ops with
  | nil =>
    intro h h' hh
    simp only [applyUpdates] at hh
    obtain rfl := Option.some.inj hh
    exact le_refl _
  | cons op ops ih =>
    intro h h' hh
    obtain ⟨hist, ut⟩ := op
    simp only [applyUpdates] at hh
    cases hu : ({ h with history := hist } : Habit).update_streak ut with
    | none => rw [hu] at hh; cases hh
    | some h₁ =>
      rw [hu] at hh
      have h1 : ({ h with history := hist } : Habit).longest_streak ≤
          h₁.longest_streak :=
        update_streak_longest_mono _ ut h₁ hu
      exact le_trans h1 (ih h₁ h' hh)

theorem map_str_roundtrip (l : List Int) :
    (l.map datetime_to_str).map datetime_from_str = l := by
  induction l with
  | nil => rfl
  | cons x xs ih =>
    show datetime_from_str (datetime_to_str x) ::
      (xs.map datetime_to_str).map datetime_from_str = x :: xs
    rw [ih]
    rfl

theorem habit_roundtrip_aux (h : Habit) (c : Int) :
    ∃ h₁ c₁, Habit.from_dict h.to_dict c = some (h₁, c₁) ∧
      habit_fields_match h₁ h := by
  refine ⟨_, _, rfl, rfl, rfl, rfl, map_str_roundtrip h.history, rfl, rfl, rfl⟩

theorem habitsFromDicts_roundtrip (hs : List Habit) :
    ∀ c : Int, ∃ hs₁ c₁,
      habitsFromDicts (hs.map Habit.to_dict) c = some (hs₁, c₁) ∧
      List.Forall₂ habit_fields_match hs₁ hs := by
  induction hs with
  | nil => intro c; exact ⟨[], c, rfl, List.Forall₂.nil⟩
  | cons h hs ih =>
    intro c
    obtain ⟨h₁, c₁, hh, hm⟩ := habit_roundtrip_aux h c
    obtain ⟨hs₁, c₂, hhs, hms⟩ := ih c₁
    refine ⟨h₁ :: hs₁, c₂, ?_, List.Forall₂.cons hm hms⟩
    simp only [List.map_cons, habitsFromDicts, hh, hhs]

theorem findLongestStreak_not_found :
    ∀ (l : List Habit) (hid : Int), (∀ g ∈ l, g.habit_id ≠ hid) →
      findLongestStreak l hid = some none := by
  intro l
  induction l with
  | nil => intro hid _; rfl
  | cons h rest ih =>
    intro hid hall
    simp only [findLongestStreak]
    rw [if_neg (hall h (List.mem_cons_self h rest))]
    exact ih hid fun g hg => hall g (List.mem_cons_of_mem h hg)

theorem findLongestStreak_found :
    ∀ (pre : List Habit) (hb : Habit) (post : List Habit) (hid : Int),
      (∀ g ∈ pre, g.habit_id ≠ hid) → hb.habit_id = hid →
      1 ≤ hb.frequency → 1 ≤ hb.period →
      ∃ h', hb.update_streak none = some h' ∧
        findLongestStreak (pre ++ hb :: post) hid =
          some (some h'.longest_streak) := by
  intro pre
  induction pre with
  | nil =>
    intro hb post hid _ hbid hf hp
    obtain ⟨h', hh⟩ := update_streak_total hb none hf hp
    refine ⟨h', hh, ?_⟩
    simp only [List.nil_append, findLongestStreak]
    rw [if_pos hbid, hh]
  | cons p pre ih =>
    intro hb post hid hpre hbid hf hp
    obtain ⟨h', hh, hfind⟩ :=
      ih hb post hid (fun g hg => hpre g (List.mem_cons_of_mem p hg)) hbid hf hp
    refine ⟨h', hh, ?_⟩
    simp only [List.cons_append, findLongestStreak]
    rw [if_neg (hpre p (List.mem_cons_self p pre))]
    exact hfind

/-! ### Claim theorems -/

/-- C1: For every non-empty sorted history, frequency ≥ 1 and period ≥ 1,
`update_streak` sets the current streak to the number of consecutive
backward-walked non-overlapping windows from the anchor: window `k` is the
inclusive interval `[anchor − (k+1)·period, anchor − k·period]`, every
window before the streak length contains at least `frequency` check-ins,
and the first window holding fewer stops the walk. -/
theorem update_streak_counts_backward_windows (h : Habit) (ut : Option Int)
    (_hsorted : h.history.Pairwise (· ≤ ·)) (hne : h.history ≠ [])
    (hf : 1 ≤ h.frequency) (hp : 1 ≤ h.period) :
    ∃ h', h.update_streak ut = some h' ∧
      ∃ n : Nat, h'.streak = (n : Int) ∧
        (∀ k : Nat, k < n →
          window_satisfied h.history h.frequency (secondsPerDay * h.period)
            (anchorOf h ut) k) ∧
        ¬ window_satisfied h.history h.frequency (secondsPerDay * h.period)
            (anchorOf h ut) n := by
  obtain ⟨n, hw, hl⟩ := walk_from_total h (anchorOf h ut) hf hp
  refine ⟨{ h with
            streak := (n : Int)
            longest_streak :=
              if h.longest_streak < (n : Int) then (n : Int)
              else h.longest_streak }, ?_, n, rfl, ?_⟩
  · rw [update_streak_eq_walk h ut hne]
    exact hw
  · exact streak_loop_spec h.history h.frequency (secondsPerDay * h.period)
      ((anchorOf h ut - listMin h.history).toNat + 2) (anchorOf h ut) n hl

/-- Witness for C1, instantiated at Scenario E: the 3-per-7-days habit with
3 check-ins in each of 4 weeks gets streak 4 and longest 4. -/
theorem update_streak_counts_backward_windows_witness :
    (habitE.update_streak none).map Habit.streak = some 4 ∧
    (habitE.update_streak none).map Habit.longest_streak = some 4 ∧
    (∃ h', habitE.update_streak none = some h' ∧
      ∃ n : Nat, h'.streak = (n : Int) ∧
        (∀ k : Nat, k < n →
          window_satisfied habitE.history habitE.frequency
            (secondsPerDay * habitE.period) (anchorOf habitE none) k) ∧
        ¬ window_satisfied habitE.history habitE.frequency
            (secondsPerDay * habitE.period) (anchorOf habitE none) n) :=
  ⟨by decide, by decide,
   update_streak_counts_backward_windows habitE none (by decide) (by decide)
     (by decide) (by decide)⟩

/-- C2: For a non-empty history the anchor of the walk is the supplied
reference time exactly when one is supplied and it is strictly earlier than
the latest check-in; a supplied time at or after the latest check-in, or no
supplied time, anchors the walk at the latest check-in instead. -/
theorem update_streak_anchor_selection (h : Habit) (hne : h.history ≠ []) :
    (∀ t : Int, t < listMax h.history →
        h.update_streak (some t) = h.walk_from t) ∧
    (∀ t : Int, listMax h.history ≤ t →
        h.update_streak (some t) = h.walk_from (listMax h.history)) ∧
    h.update_streak none = h.walk_from (listMax h.history) := by
  refine ⟨fun t ht => ?_, fun t ht => ?_, ?_⟩
  · rw [update_streak_eq_walk h (some t) hne]
    show h.walk_from (if t < listMax h.history then t else listMax h.history) =
      h.walk_from t
    rw [if_pos ht]
  · rw [update_streak_eq_walk h (some t) hne]
    show h.walk_from (if t < listMax h.history then t else listMax h.history) =
      h.walk_from (listMax h.history)
    rw [if_neg (not_lt.mpr ht)]
  · rw [update_streak_eq_walk h none hne]
    rfl

/-- Witness for C2 on a concrete two-check-in habit: an early override is
used, a late override and a missing override both fall back to the latest
check-in. -/
theorem update_streak_anchor_selection_witness :
    habitW.update_streak (some (-5)) = habitW.walk_from (-5) ∧
    habitW.update_streak (some 999999) =
      habitW.walk_from (listMax habitW.history) ∧
    habitW.update_streak none = habitW.walk_from (listMax habitW.history) :=
  ⟨(update_streak_anchor_selection habitW (by decide)).1 (-5) (by decide),
   (update_streak_anchor_selection habitW (by decide)).2.1 999999 (by decide),
   (update_streak_anchor_selection habitW (by decide)).2.2⟩

/-- C3: On an empty history `update_streak` returns normally for every
frequency, period and reference time, sets the streak to 0 and leaves the
longest streak unchanged. -/
theorem update_streak_empty_history (h : Habit) (ut : Option Int)
    (he : h.history = []) :
    ∃ h', h.update_streak ut = some h' ∧ h'.streak = 0 ∧
      h'.longest_streak = h.longest_streak :=
  ⟨{ h with streak := 0 }, update_streak_empty h ut he, rfl, rfl⟩

/-- Witness for C3: an empty-history habit with non-positive frequency and
period and longest streak 5 still updates without error, keeping the 5. -/
theorem update_streak_empty_history_witness :
    habitEmpty.history = [] ∧ habitEmpty.frequency = 0 ∧
    habitEmpty.period = -3 ∧ habitEmpty.longest_streak = 5 ∧
    (∃ h', habitEmpty.update_streak (some 42) = some h' ∧ h'.streak = 0 ∧
      h'.longest_streak = habitEmpty.longest_streak) :=
  ⟨by decide, by decide, by decide, by decide,
   update_streak_empty_history habitEmpty (some 42) (by decide)⟩

/-- C4: Over any sequence of recomputations (arbitrary histories and
reference times installed between calls) the longest streak never
decreases, and any single `update_streak` call on a non-empty history
leaves the streak no larger than the longest streak. -/
theorem longest_streak_monotone :
    (∀ (h : Habit) (ops : List (List Int × Option Int)) (h' : Habit),
        applyUpdates h ops = some h' →
        h.longest_streak ≤ h'.longest_streak) ∧
    (∀ (h : Habit) (ut : Option Int) (h' : Habit),
        h.update_streak ut = some h' → h.history ≠ [] →
        h'.streak ≤ h'.longest_streak) :=
  ⟨fun h ops h' hh => applyUpdates_longest_mono ops h h' hh,
   fun h ut h' hu hne => update_streak_streak_le_longest h ut h' hu hne⟩

/-- Witness for C4: a two-step sequence on `habitW` whose second step clears
the history keeps the longest streak of 1, and the single non-empty update
of `habitWH` ends with streak ≤ longest. -/
theorem longest_streak_monotone_witness :
    habitW.longest_streak ≤ updResult.longest_streak ∧
    habitWH_updated.streak ≤ habitWH_updated.longest_streak :=
  ⟨(longest_streak_monotone).1 habitW updOps updResult (by decide),
   (longest_streak_monotone).2 habitWH none habitWH_updated (by decide)
     (by decide)⟩

/-- C5: Serializing an owner and deserializing the document reproduces the
owner's name, the habit count, and for every habit the identifier, name,
periodicity, timestamp-for-timestamp history, streak, longest streak and
creation time. -/
theorem serialization_round_trip (u : User) (c : Int) :
    ∃ u' c', User.from_dict u.to_dict c = some (u', c') ∧
      u'.name = u.name ∧ u'.habits.length = u.habits.length ∧
      List.Forall₂ habit_fields_match u'.habits u.habits := by
  obtain ⟨hs₁, c₁, hhs, hms⟩ := habitsFromDicts_roundtrip u.habits c
  refine ⟨⟨u.user_id, u.name, hs₁⟩, c₁, ?_, rfl, hms.length_eq, hms⟩
  simp only [User.from_dict, User.to_dict, hhs]

/-- C6: Deserialization restores the identifier high-water mark: a restored
habit's identifier is strictly below the returned counter and the counter
never moves backward; a habit created without an explicit identifier
receives the current counter (so an identifier strictly above everything
seen) and bumps the counter by one; every construction keeps the counter at
least as large as before and strictly above the new habit's identifier. -/
theorem id_counter_high_water :
    (∀ (d : HabitDict) (c : Int) (hb : Habit) (c' : Int),
        Habit.from_dict d c = some (hb, c') → hb.habit_id < c' ∧ c ≤ c') ∧
    (∀ (name : String) (per : Int × Int) (cr : Option Int) (today c : Int),
        (Habit.init name per cr none today c).1.habit_id = c ∧
        (Habit.init name per cr none today c).2 = c + 1) ∧
    (∀ (name : String) (per : Int × Int) (cr hid : Option Int) (today c : Int),
        c ≤ (Habit.init name per cr hid today c).2 ∧
        (Habit.init name per cr hid today c).1.habit_id <
          (Habit.init name per cr hid today c).2) := by
  refine ⟨?_, fun name per cr today c => ⟨rfl, rfl⟩, ?_⟩
  · intro d c hb c' hd
    unfold Habit.from_dict at hd
    cases hper : d.periodicity with
    | nil => rw [hper] at hd; cases hd
    | cons f rest =>
      cases rest with
      | nil => rw [hper] at hd; cases hd
      | cons p rest2 =>
        rw [hper] at hd
        have h2 := Option.some.inj hd
        have hcid : d.habit_id = hb.habit_id :=
          congrArg (fun x => x.1.habit_id) h2
        have hc' : (if c ≤ d.habit_id then d.habit_id + 1 else c) = c' :=
          congrArg Prod.snd h2
        rw [← hcid, ← hc']
        by_cases hle : c ≤ d.habit_id
        · rw [if_pos hle]; omega
        · rw [if_neg hle]; omega
  · intro name per cr hid today c
    cases hid with
    | none => exact ⟨by show c ≤ c + 1; omega, by show c < c + 1; omega⟩
    | some j =>
      constructor
      · show c ≤ if c ≤ j then j + 1 else c
        split <;> omega
      · show j < if c ≤ j then j + 1 else c
        split <;> omega

/-- Witness for C6: restoring `dict7` (identifier 7) from counter 0 yields
counter 8 with 7 below it, and the next anonymous creation receives
identifier 8. -/
theorem id_counter_high_water_witness :
    habit7.habit_id < 8 ∧ (0 : Int) ≤ 8 ∧
    (Habit.init "c" (1, 1) none none 0 8).1.habit_id = 8 ∧
    Habit.from_dict dict7 0 = some (habit7, 8) :=
  ⟨((id_counter_high_water).1 dict7 0 habit7 8 (by decide)).1,
   ((id_counter_high_water).1 dict7 0 habit7 8 (by decide)).2,
   ((id_counter_high_water).2.1 "c" (1, 1) none 0 8).1,
   by decide⟩

/-- C7 (amended): habit creation performs no periodicity validation — a
habit is constructed for every (frequency, period) pair, including
non-positive values, and the pair is stored as given; no
`InvalidPeriodicity` failure path exists in `Habit.__init__`. -/
theorem habit_init_accepts_any_periodicity (name : String) (f p : Int)
    (cr hid : Option Int) (today c : Int) :
    (Habit.init name (f, p) cr hid today c).1.periodicity = (f, p) ∧
    (Habit.init name (f, p) cr hid today c).1.frequency = f ∧
    (Habit.init name (f, p) cr hid today c).1.period = p := by
  cases hid <;> exact ⟨rfl, rfl, rfl⟩

/-- Counterexample to C7 as stated: constructing a habit with the
non-positive periodicity (0, 0) succeeds silently — the habit is built with
frequency 0 and period 0 and no error of any kind is raised. -/
theorem habit_init_no_validation :
    (Habit.init "a" (0, 0) none none 0 0).1.frequency = 0 ∧
    (Habit.init "a" (0, 0) none none 0 0).1.period = 0 ∧
    ¬ 1 ≤ (Habit.init "a" (0, 0) none none 0 0).1.frequency := by decide

/-- C8 (amended): the daily habit whose 28-day history skips every 7th day
gets current streak 27 (and longest 27) when updated from the end of its
history: because both window bounds are inclusive, every one-day window
bordering a missed day still contains the check-in on its other boundary,
so isolated missed days never break the walk, which stops only at the
window below day 0. -/
theorem scenarioC_streak_27 :
    habitC.update_streak none =
      some { habitC with streak := 27, longest_streak := 27 } := by decide

/-- Counterexample to C8 as stated: the streak of the every-7th-day-skipped
daily habit is 27, not the 6 days that lie after the most recent missed day
(day 21), so the walk is not truncated at the first missed day. -/
theorem scenarioC_not_truncated :
    (habitC.update_streak none).map Habit.streak = some 27 ∧
    ¬ (habitC.update_streak none).map Habit.streak = some 6 := by decide

/-- C9: the per-habit longest-streak analytics returns the Python `None`
signal (distinct from any integer, in particular from 0) when no habit
carries the identifier, and otherwise recomputes the first matching habit's
streak and returns its longest streak. -/
theorem analytics_longest_streak_for_habit_spec :
    (∀ (u : User) (hid : Int), (∀ g ∈ u.habits, g.habit_id ≠ hid) →
        analytics_longest_streak_for_habit u hid = some none) ∧
    (∀ (u : User) (hid : Int) (pre : List Habit) (hb : Habit)
        (post : List Habit),
        u.habits = pre ++ hb :: post → (∀ g ∈ pre, g.habit_id ≠ hid) →
        hb.habit_id = hid → 1 ≤ hb.frequency → 1 ≤ hb.period →
        ∃ h', hb.update_streak none = some h' ∧
          analytics_longest_streak_for_habit u hid =
            some (some h'.longest_streak)) ∧
    (∀ v : Int, (some none : Option (Option Int)) ≠ some (some v)) := by
  refine ⟨?_, ?_, fun v hv => by cases Option.some.inj hv⟩
  · intro u hid hall
    exact findLongestStreak_not_found u.habits hid hall
  · intro u hid pre hb post hsplit hpre hbid hf hp
    obtain ⟨h', hh, hfind⟩ := findLongestStreak_found pre hb post hid hpre
      hbid hf hp
    refine ⟨h', hh, ?_⟩
    unfold analytics_longest_streak_for_habit
    rw [hsplit]
    exact hfind

/-- Witness for C9: on the one-habit user `userW`, looking up the unused
identifier 99 yields the not-found signal and looking up identifier 0
yields that habit's recomputed longest streak (2). -/
theorem analytics_longest_streak_for_habit_spec_witness :
    analytics_longest_streak_for_habit userW 99 = some none ∧
    (∃ h', habitW.update_streak none = some h' ∧
      analytics_longest_streak_for_habit userW 0 =
        some (some h'.longest_streak)) ∧
    analytics_longest_streak_for_habit userW 0 = some (some 2) :=
  ⟨(analytics_longest_streak_for_habit_spec).1 userW 99 (by decide),
   (analytics_longest_streak_for_habit_spec).2.1 userW 0 [] habitW []
     (by decide) (by decide) (by decide) (by decide) (by decide),
   by decide⟩

/-- C10: for every finite history and every periodicity with frequency ≥ 1
and period ≥ 1 the backward window walk of `update_streak` terminates —
each satisfied window moves the boundary back by at least one day, so the
walk reaches a window below the earliest check-in and stops. -/
theorem update_streak_terminates (h : Habit) (ut : Option Int)
    (hf : 1 ≤ h.frequency) (hp : 1 ≤ h.period) :
    ∃ h', h.update_streak ut = some h' :=
  update_streak_total h ut hf hp

/-- Witness for C10: the Scenario E habit terminates under a far-future
override reference. -/
theorem update_streak_terminates_witness :
    1 ≤ habitE.frequency ∧ 1 ≤ habitE.period ∧
    ∃ h', habitE.update_streak (some (dayT 100)) = some h' :=
  ⟨by decide, by decide,
   update_streak_terminates habitE (some (dayT 100)) (by decide) (by decide)⟩
